import Mathlib

/-!
Verification development for the caching decision layer of the jussi
JSON-RPC proxy (`src/jussi/cache.py`): the TTL policy engine, the
multi-backend racing read path, the fan-out write path, and the
response-id merge, shallowly embedded in Lean.

Conventions of the embedding:
* JSON payloads are modelled by the inductive `Json`; Python `None` is
  `Json.null` and a Python exception escaping a modelled operation is the
  `none` of an `Option` result.
* `asyncio.as_completed` over the backend `get` calls is modelled by the
  list of backend outcomes in completion order (`GetOutcome`).
* The decorator `ignore_errors_async` (defined in `jussi.utils`, which is
  not part of the packaged source) is modelled from the spec: it converts
  any error raised inside the decorated coroutine into the empty result.
* Fire-and-forget writes are modelled by an event trace (`WriteEvent`)
  recording the TTL computation and every `set` call issued, so that
  suppression and skipping are observable propositions.
-/

namespace Jussi

/-- A JSON value. Python `None` is `Json.null`. Numeric payloads relevant
here (JSON-RPC ids, block numbers) are integers. -/
inductive Json where
  | null : Json
  | bool : Bool → Json
  | num : Int → Json
  | str : String → Json
  | arr : List Json → Json
  | obj : List (String × Json) → Json

/-- First binding of key `k` in an association list, as Python dict access
`d[k]` / `k in d` (dicts cannot hold duplicate keys; on the lists we build
the first binding is the binding). -/
def lookupJ : List (String × Json) → String → Option Json
  | [], _ => none
  | kv :: rest, k => if kv.1 = k then some kv.2 else lookupJ rest k

/-- Python `k in value` for a JSON value: true exactly when the value is a
dict containing the key. -/
def hasKey (j : Json) (k : String) : Bool :=
  match j with
  | .obj kvs => (lookupJ kvs k).isSome
  | _ => false

/-- `cytoolz.get_in(keys, coll)`: walk nested dicts along `keys`,
returning the default `None` (here `Json.null`) as soon as a key is
missing or the current value is not a dict (cytoolz catches the
`KeyError`/`TypeError`). -/
def getIn : List String → Json → Json
  | [], j => j
  | k :: ks, .obj kvs =>
    match lookupJ kvs k with
    | some v => getIn ks v
    | none => .null
  | _ :: _, _ => .null

/-- Python truthiness `bool(v)` of a JSON value: `None`, `False`, `0`,
empty string, empty list and empty dict are falsy. -/
def truthy : Json → Bool
  | .null => false
  | .bool b => b
  | .num n => decide (n ≠ 0)
  | .str s => !s.isEmpty
  | .arr xs => !xs.isEmpty
  | .obj kvs => !kvs.isEmpty

/-- Python `str(v)` for the values that can appear as a `block_id`.
Scalars are rendered exactly as CPython renders them. Containers are
rendered with their leading delimiter (`[` / the opening brace); only the
first eight characters of the rendering are ever consumed downstream, and
a leading delimiter already fails hexadecimal parsing, so the elided
element rendering is unobservable there. -/
def pyStr : Json → String
  | .null => "None"
  | .bool true => "True"
  | .bool false => "False"
  | .num n => toString n
  | .str s => s
  | .arr _ => "[...]"
  | .obj _ => "\x7b...\x7d"

/-- Value of a hexadecimal digit character (`0`-`9` are 0x30-0x39,
`a`-`f` are 0x61-0x66, `A`-`F` are 0x41-0x46). -/
def hexDigitVal (c : Char) : Option Nat :=
  if 0x30 ≤ c.toNat ∧ c.toNat ≤ 0x39 then some (c.toNat - 0x30)
  else if 0x61 ≤ c.toNat ∧ c.toNat ≤ 0x66 then some (c.toNat - 0x61 + 10)
  else if 0x41 ≤ c.toNat ∧ c.toNat ≤ 0x46 then some (c.toNat - 0x41 + 10)
  else none

/-- Total base-16 accumulator used to state what parsing returns on a
plain hex-digit string (invalid digits contribute 0; only ever applied
under a validity hypothesis). -/
def hexAccT : List Char → Nat → Nat
  | [], n => n
  | c :: cs, n => hexAccT cs (16 * n + (hexDigitVal c).getD 0)

/-- Numeric value of a hex string (meaningful when `validHex` holds). -/
def hexNum (s : String) : Nat :=
  hexAccT s.data 0

/-- Character-list core of `validHex`. -/
def validHexL : List Char → Bool
  | [] => false
  | l => l.all fun c => (hexDigitVal c).isSome

/-- `s` is non-empty and consists of plain hex digits only. -/
def validHex (s : String) : Bool :=
  validHexL s.data

/-- CPython's `Py_UNICODE_ISSPACE`: the whitespace characters `int`
strips around a numeric literal (ASCII 0x09-0x0d and 0x1c-0x20, and the
Unicode space code points). -/
def isPySpace (c : Char) : Bool :=
  decide ((0x09 ≤ c.toNat ∧ c.toNat ≤ 0x0d) ∨ (0x1c ≤ c.toNat ∧ c.toNat ≤ 0x20) ∨
    c.toNat = 0x85 ∨ c.toNat = 0xa0 ∨ c.toNat = 0x1680 ∨
    (0x2000 ≤ c.toNat ∧ c.toNat ≤ 0x200a) ∨
    c.toNat = 0x2028 ∨ c.toNat = 0x2029 ∨ c.toNat = 0x202f ∨
    c.toNat = 0x205f ∨ c.toNat = 0x3000)

/-- Greedy digit run: hex digits with single underscores allowed between
digits (an underscore must be followed by a digit). Returns the
accumulated value and the first unconsumed suffix; a malformed
underscore is left unconsumed, to fail the end-of-literal check. -/
def pyHexTail : List Char → Nat → Nat × List Char
  | [], n => (n, [])
  | [c], n =>
    if (hexDigitVal c).isSome then (16 * n + (hexDigitVal c).getD 0, [])
    else (n, [c])
  | c :: c2 :: cs, n =>
    if (hexDigitVal c).isSome then pyHexTail (c2 :: cs) (16 * n + (hexDigitVal c).getD 0)
    else if c = '_' ∧ (hexDigitVal c2).isSome = true then
      pyHexTail cs (16 * n + (hexDigitVal c2).getD 0)
    else (n, c :: c2 :: cs)

/-- A digit part: at least one leading hex digit, then `pyHexTail`. -/
def pyHexDigits : List Char → Option (Nat × List Char)
  | [] => none
  | c :: cs =>
    if (hexDigitVal c).isSome then some (pyHexTail cs ((hexDigitVal c).getD 0))
    else none

/-- The body of a base-16 literal: an optional `0x`/`0X` marker (with an
optional single underscore directly after it), then a digit part. -/
def pyHexBody (l : List Char) : Option (Nat × List Char) :=
  match l with
  | c0 :: c1 :: rest =>
    if c0 = '0' ∧ (c1 = 'x' ∨ c1 = 'X') then
      match rest with
      | c2 :: rest2 => if c2 = '_' then pyHexDigits rest2 else pyHexDigits (c2 :: rest2)
      | [] => pyHexDigits []
    else pyHexDigits l
  | _ => pyHexDigits l

/-- Strip leading `int`-whitespace. -/
def dropSpaces (l : List Char) : List Char :=
  l.dropWhile isPySpace

/-- Only `int`-whitespace remains. -/
def allSpaces (l : List Char) : Bool :=
  l.all isPySpace

/-- An optional single sign. -/
def pySign (l : List Char) : Int × List Char :=
  match l with
  | c :: rest => if c = '+' then (1, rest) else if c = '-' then (-1, rest) else (1, l)
  | [] => (1, [])

/-- Character-list core of `pyIntHex`: leading whitespace, optional
sign, literal body, trailing whitespace, end of string. -/
def pyIntHexCore (l : List Char) : Option Int :=
  match pyHexBody (pySign (dropSpaces l)).2 with
  | some nr => if allSpaces nr.2 then some ((pySign (dropSpaces l)).1 * (nr.1 : Int)) else none
  | none => none

/-- Python `int(s, base=16)`: optional surrounding whitespace (the
`Py_UNICODE_ISSPACE` set), an optional `+`/`-` sign, an optional
`0x`/`0X` marker, and hex digits with single underscores between digits
(or one directly after the marker); anything else raises `ValueError`,
the `none` outcome. One CPython feature is not modelled: before parsing,
CPython maps non-ASCII Unicode decimal digits (category Nd) to ASCII
digits; the model is exact on ASCII strings, and every theorem below
that relies on a parse failing restricts itself to ASCII input
(`allAscii`). -/
def pyIntHex (s : String) : Option Int :=
  pyIntHexCore s.data

/-- Every character is ASCII: the region on which `pyIntHex` models
CPython exactly. -/
def allAscii (s : String) : Bool :=
  s.data.all fun c => decide (c.toNat < 128)

/-- TTL directive. Modelled from the spec: the sentinel constants live in
`jussi.jsonrpc_method_cache_settings`, which is not part of the packaged
source. `NO_CACHE` and `NO_EXPIRE_IF_IRREVERSIBLE` are "0 or negative"
sentinels, `NO_EXPIRE` is treated as effectively unbounded (greater than
any finite TTL), and any positive number of seconds is a finite TTL. -/
inductive TTLDirective where
  | NO_CACHE : TTLDirective
  | NO_EXPIRE : TTLDirective
  | NO_EXPIRE_IF_IRREVERSIBLE : TTLDirective
  | seconds : Nat → TTLDirective
deriving DecidableEq

/-- The comparison `ttl > max_ttl` performed by `memory_cache_ttl`, on the
directive encoding above: `NO_EXPIRE` exceeds every finite bound, the
negative sentinels exceed none. -/
def ttl_gt (t : TTLDirective) (m : Nat) : Bool :=
  match t with
  | .NO_EXPIRE => true
  | .seconds n => decide (m < n)
  | _ => false

/-- `memory_cache_ttl(ttl, max_ttl)`: cap a TTL destined for the bounded
in-process memory cache — "avoid using too much memory". The source
default for `max_ttl` is 60. -/
def memory_cache_ttl (ttl : TTLDirective) (max_ttl : Nat) : TTLDirective :=
  if ttl_gt ttl max_ttl then .seconds max_ttl else ttl

/-- `block_num_from_id(block_hash)`: `int(str(block_hash)[:8], base=16)`,
the first 4 bytes (8 hex digits) of the block id. A raised `ValueError`
is the `none` outcome. -/
def block_num_from_id (block_hash : Json) : Option Int :=
  pyIntHex ((pyStr block_hash).take 8)

/-- `block_num_from_jsonrpc_response(resp)`: extract `result.block_id`
(with `cytoolz.get_in`, defaulting to `None`) and parse its block
number. -/
def block_num_from_jsonrpc_response (resp : Json) : Option Int :=
  block_num_from_id (getIn ["result", "block_id"] resp)

/-- `irreversible_ttl(resp, last_irreversible_block_num)`: `NO_CACHE` when
the block is not yet irreversible, `NO_EXPIRE` when it is, and `NO_CACHE`
when extracting or parsing the block number raises (the source wraps the
body in `try/except Exception`). -/
def irreversible_ttl (resp : Json) (librn : Nat) : TTLDirective :=
  match block_num_from_jsonrpc_response resp with
  | some bn => if (librn : Int) < bn then .NO_CACHE else .NO_EXPIRE
  | none => .NO_CACHE

/-- Modelled from the spec: `jussi.utils.method_urn` (not in the packaged
source) derives a canonical deterministic string key from the request's
method and params. -/
def method_urn (req : Json) : String :=
  pyStr (getIn ["method"] req) ++ "." ++ pyStr (getIn ["params"] req)

/-- `jsonrpc_cache_key(request) = method_urn(request)`. -/
def jsonrpc_cache_key (req : Json) : String :=
  method_urn req

/-- Modelled from the spec: the longest-prefix lookup of
`jussi.jsonrpc_method_cache_settings.TTLS` (module not in the packaged
source): the directive of the longest rule prefix matching the urn,
`NO_CACHE` when no rule matches; among equal longest prefixes the
last-listed rule wins (the tie-break is implementation-defined). -/
def longest_prefix_match (ttls : List (String × TTLDirective)) (urn : String) : TTLDirective :=
  (ttls.foldl
    (fun acc p =>
      if p.1.isPrefixOf urn then
        match acc with
        | none => some p
        | some q => if q.1.length ≤ p.1.length then some p else some q
      else acc)
    none).elim .NO_CACHE (fun p => p.2)

/-- `ttl_from_urn(urn)`: look the urn up in the rule table. -/
def ttl_from_urn (ttls : List (String × TTLDirective)) (urn : String) : TTLDirective :=
  longest_prefix_match ttls urn

/-- `ttl_from_jsonrpc_request(request, last_irreversible_block_num,
response)`: rule-table lookup on the request's urn, resolving the
deferred `NO_EXPIRE_IF_IRREVERSIBLE` directive against the response. -/
def ttl_from_jsonrpc_request (ttls : List (String × TTLDirective)) (req : Json)
    (librn : Nat) (resp : Json) : TTLDirective :=
  let t := ttl_from_urn ttls (jsonrpc_cache_key req)
  if t = .NO_EXPIRE_IF_IRREVERSIBLE then irreversible_ttl resp librn else t

/-- Kind of a configured cache backend: `aiocache.SimpleMemoryCache`
(the `isinstance` test in `cache_set`) or a networked cache. -/
inductive BackendKind where
  | memory : BackendKind
  | networked : BackendKind
deriving DecidableEq

/-- A configured backend handle: an identity plus its kind. -/
structure Backend where
  bid : Nat
  kind : BackendKind
deriving DecidableEq

/-- Observable event of the write path: the single TTL computation, and
each `cache.set(key, value, ttl)` issued (all sets share the one key and
value, so the event records the backend and the ttl it received). -/
inductive WriteEvent where
  | ttlComputed : TTLDirective → WriteEvent
  | setIssued : Backend → TTLDirective → WriteEvent
deriving DecidableEq

/-- The `for cache in caches` loop of `cache_set`, with the source's
mutation of the shared `ttl` local: a memory backend reassigns
`ttl = memory_cache_ttl(ttl)`, and `ttl == NO_CACHE` executes `return`,
ending the whole loop. The recursion carries the mutated `ttl`. -/
def cache_set_go : List Backend → TTLDirective → List WriteEvent
  | [], _ => []
  | b :: rest, ttl =>
    let ttl2 := match b.kind with
      | .memory => memory_cache_ttl ttl 60
      | .networked => ttl
    if ttl2 = .NO_CACHE then []
    else .setIssued b ttl2 :: cache_set_go rest ttl2

/-- `cache_set(request, value)` on the path taken from
`cache_json_response` (no explicit ttl argument, so the ttl is computed
from the request and response): compute the shared ttl once, then run the
backend loop. -/
def cache_set (ttls : List (String × TTLDirective)) (caches : List Backend)
    (req : Json) (librn : Nat) (value : Json) : List WriteEvent :=
  let t := ttl_from_jsonrpc_request ttls req librn value
  .ttlComputed t :: cache_set_go caches t

/-- `cache_json_response(request, value)`: never cache error responses —
`'error' in value` returns before anything else runs; otherwise schedule
`cache_set`. -/
def cache_json_response (ttls : List (String × TTLDirective)) (caches : List Backend)
    (req : Json) (librn : Nat) (value : Json) : List WriteEvent :=
  if hasKey value "error" then [] else cache_set ttls caches req librn value

/-- Python `del kvs[k]` composed into the functional setting: drop the
bindings of `k`. -/
def delKey (kvs : List (String × Json)) (k : String) : List (String × Json) :=
  kvs.filter fun kv => decide (kv.1 ≠ k)

/-- Python `kvs[k] = v`: replace the value of an existing key in place,
or append a new binding. -/
def setKey (kvs : List (String × Json)) (k : String) (v : Json) : List (String × Json) :=
  if (lookupJ kvs k).isSome then
    kvs.map fun kv => if kv.1 = k then (k, v) else kv
  else kvs ++ [(k, v)]

/-- `merge_cached_response(cached_response, jsonrpc_request)`: copy the
live request's `id` over the cached one, or delete the cached `id` when
the live request has none. `del cached_response['id']` on a dict without
the key raises `KeyError`, and indexing a non-dict raises: both raised
outcomes are `none`. -/
def merge_cached_response (cached req : Json) : Option Json :=
  match cached, req with
  | .obj ckvs, .obj rkvs =>
    match lookupJ rkvs "id" with
    | some v => some (.obj (setKey ckvs "id" v))
    | none =>
      if (lookupJ ckvs "id").isSome then some (.obj (delKey ckvs "id"))
      else none
  | _, _ => none

/-- Outcome of one backend's `get` future, listed in the order
`asyncio.as_completed` yields them: either the awaited value or a raised
error. -/
inductive GetOutcome where
  | err : GetOutcome
  | val : Json → GetOutcome

/-- `cache_get(request)` over the completion-ordered backend outcomes:
await each future in turn, return the merged response at the first truthy
value. Awaiting an errored future raises, and the `ignore_errors_async`
decorator (modelled from the spec) turns the raised error — wherever in
the body it occurs — into the empty result, so an error ends the whole
scan, and a `KeyError` raised by the merge is likewise swallowed to
empty. Exhausting the loop falls through to Python's implicit `None`. -/
def cache_get : List GetOutcome → Json → Option Json
  | [], _ => none
  | .err :: _, _ => none
  | .val v :: rest, req =>
    if truthy v then merge_cached_response v req else cache_get rest req

/-- Completion or failure of the detached write task; never consumed by
the request path. -/
inductive WriteOutcome where
  | completed : WriteOutcome
  | failed : WriteOutcome
deriving DecidableEq

/-- What the orchestrator hands back: the response returned to the
caller, whether the wrapped upstream call was invoked, and the write
trace of the detached `cache_json_response` task it scheduled. -/
structure CacherOutcome where
  response : Json
  upstreamCalled : Bool
  scheduledWrite : List WriteEvent

/-- The `cacher` decorator: attempt the cached read; a truthy result is
returned as-is (upstream never invoked, nothing scheduled); otherwise
invoke the upstream call, schedule `cache_json_response` as a detached
future via `asyncio.ensure_future`, and return the upstream response.
The detached write's eventual outcome `w` is never consumed. -/
def cacher (ttls : List (String × TTLDirective)) (caches : List Backend)
    (completions : List GetOutcome) (req up : Json) (librn : Nat)
    (_w : WriteOutcome) : CacherOutcome :=
  match cache_get completions req with
  | some m =>
    if truthy m then CacherOutcome.mk m false []
    else CacherOutcome.mk up true (cache_json_response ttls caches req librn up)
  | none => CacherOutcome.mk up true (cache_json_response ttls caches req librn up)

/-- The claim's per-backend notion of effective TTL: the directive a
given backend's `set` would receive were the memory cap applied to that
backend alone (the memory branch is the source's `memory_cache_ttl` with
its default bound). -/
def effective_ttl (t : TTLDirective) (k : BackendKind) : TTLDirective :=
  match k with
  | .memory => memory_cache_ttl t 60
  | .networked => t

/-! ### Helper lemmas: the hex parser -/

lemma hexDigit_toNat {c : Char} (h : (hexDigitVal c).isSome = true) :
    (0x30 ≤ c.toNat ∧ c.toNat ≤ 0x39) ∨ (0x61 ≤ c.toNat ∧ c.toNat ≤ 0x66) ∨
    (0x41 ≤ c.toNat ∧ c.toNat ≤ 0x46) := by
  unfold hexDigitVal at h
  split_ifs at h with h1 h2 h3
  · exact Or.inl h1
  · exact Or.inr (Or.inl h2)
  · exact Or.inr (Or.inr h3)
  · simp at h

lemma hexDigit_not_space {c : Char} (h : (hexDigitVal c).isSome = true) :
    isPySpace c = false := by
  have hr := hexDigit_toNat h
  unfold isPySpace
  rw [decide_eq_false_iff_not]
  omega

lemma hexDigit_ne_plus {c : Char} (h : (hexDigitVal c).isSome = true) :
    c ≠ '+' := by
  intro e
  have hr := hexDigit_toNat h
  rw [e] at hr
  exact absurd hr (by decide)

lemma hexDigit_ne_minus {c : Char} (h : (hexDigitVal c).isSome = true) :
    c ≠ '-' := by
  intro e
  have hr := hexDigit_toNat h
  rw [e] at hr
  exact absurd hr (by decide)

lemma hexDigit_ne_x {c : Char} (h : (hexDigitVal c).isSome = true) :
    c ≠ 'x' ∧ c ≠ 'X' := by
  have hr := hexDigit_toNat h
  constructor
  · intro e
    rw [e] at hr
    exact absurd hr (by decide)
  · intro e
    rw [e] at hr
    exact absurd hr (by decide)

lemma pyHexTail_all_hex (l : List Char) :
    ∀ n, (l.all fun c => (hexDigitVal c).isSome) = true →
      pyHexTail l n = (hexAccT l n, []) := by
  induction l with
  | nil => intro n _; rfl
  | cons c cs ih =>
    intro n h
    rw [List.all_cons, Bool.and_eq_true] at h
    obtain ⟨h1, h2⟩ := h
    obtain ⟨d, hd⟩ := Option.isSome_iff_exists.mp h1
    cases cs with
    | nil => simp [pyHexTail, hexAccT, h1, hd]
    | cons c2 cs2 =>
      simp only [pyHexTail, h1, hd, Option.isSome_some, Option.getD_some, if_true]
      rw [ih _ h2]
      simp [hexAccT, hd]

lemma pyHexDigits_all_hex {l : List Char}
    (h : (l.all fun c => (hexDigitVal c).isSome) = true) (hne : l ≠ []) :
    pyHexDigits l = some (hexAccT l 0, []) := by
  cases l with
  | nil => exact absurd rfl hne
  | cons c cs =>
    rw [List.all_cons, Bool.and_eq_true] at h
    obtain ⟨h1, h2⟩ := h
    obtain ⟨d, hd⟩ := Option.isSome_iff_exists.mp h1
    simp only [pyHexDigits, h1, hd, Option.getD_some, if_true]
    rw [pyHexTail_all_hex cs d h2]
    simp [hexAccT, hd]

lemma pyHexBody_all_hex {l : List Char}
    (h : (l.all fun c => (hexDigitVal c).isSome) = true) :
    pyHexBody l = pyHexDigits l := by
  cases l with
  | nil => rfl
  | cons c0 t =>
    cases t with
    | nil => rfl
    | cons c1 rest =>
      have h1 : (hexDigitVal c1).isSome = true := by
        rw [List.all_cons, List.all_cons, Bool.and_eq_true, Bool.and_eq_true] at h
        exact h.2.1
      have hcond : ¬(c0 = '0' ∧ (c1 = 'x' ∨ c1 = 'X')) := fun hc =>
        hc.2.elim (hexDigit_ne_x h1).1 (hexDigit_ne_x h1).2
      simp [pyHexBody, hcond]

lemma dropSpaces_cons_of_not_space {c : Char} {cs : List Char}
    (h : isPySpace c = false) :
    dropSpaces (c :: cs) = c :: cs := by
  simp [dropSpaces, List.dropWhile_cons, h]

lemma pySign_of_digit {c : Char} {cs : List Char}
    (h : (hexDigitVal c).isSome = true) :
    pySign (c :: cs) = (1, c :: cs) := by
  simp [pySign, hexDigit_ne_plus h, hexDigit_ne_minus h]

lemma pyIntHexCore_plain {l : List Char} (h : validHexL l = true) :
    pyIntHexCore l = some ((hexAccT l 0 : Nat) : Int) := by
  cases l with
  | nil => simp [validHexL] at h
  | cons c cs =>
    have hall : ((c :: cs).all fun x => (hexDigitVal x).isSome) = true := by
      simpa [validHexL] using h
    have h1 : (hexDigitVal c).isSome = true := by
      rw [List.all_cons, Bool.and_eq_true] at hall
      exact hall.1
    have hb : pyHexBody (c :: cs) = some (hexAccT (c :: cs) 0, []) := by
      rw [pyHexBody_all_hex hall]
      exact pyHexDigits_all_hex hall (by simp)
    unfold pyIntHexCore
    rw [dropSpaces_cons_of_not_space (hexDigit_not_space h1), pySign_of_digit h1]
    simp [hb, allSpaces]

lemma pyIntHex_plain {s : String} (h : validHex s = true) :
    pyIntHex s = some ((hexNum s : Nat) : Int) :=
  pyIntHexCore_plain h

/-! ### Helper lemmas: association-list operations -/

lemma lookupJ_append (l m : List (String × Json)) (k : String) :
    lookupJ (l ++ m) k =
      match lookupJ l k with
      | some v => some v
      | none => lookupJ m k := by
  induction l with
  | nil => rfl
  | cons kv rest ih =>
    by_cases hk : kv.1 = k <;> simp [lookupJ, hk, ih]

lemma lookupJ_map_set_self {l : List (String × Json)} {k : String} {v : Json}
    (h : (lookupJ l k).isSome = true) :
    lookupJ (l.map fun kv => if kv.1 = k then (k, v) else kv) k = some v := by
  induction l with
  | nil => simp [lookupJ] at h
  | cons kv rest ih =>
    by_cases hk : kv.1 = k
    · simp [lookupJ, hk]
    · have h2 : (lookupJ rest k).isSome = true := by simpa [lookupJ, hk] using h
      simp only [List.map_cons, lookupJ, hk, if_neg hk, if_false]
      exact ih h2

lemma lookupJ_map_set_other {l : List (String × Json)} {k k2 : String} {v : Json}
    (hne : k2 ≠ k) :
    lookupJ (l.map fun kv => if kv.1 = k then (k, v) else kv) k2 = lookupJ l k2 := by
  induction l with
  | nil => rfl
  | cons kv rest ih =>
    by_cases hk : kv.1 = k
    · have h2 : kv.1 ≠ k2 := by rw [hk]; exact Ne.symm hne
      simp [lookupJ, hk, Ne.symm hne, h2, ih]
    · by_cases h2 : kv.1 = k2 <;> simp [lookupJ, hk, h2, hne, ih]

lemma lookupJ_setKey_self (l : List (String × Json)) (k : String) (v : Json) :
    lookupJ (setKey l k v) k = some v := by
  unfold setKey
  by_cases h : (lookupJ l k).isSome = true
  · rw [if_pos h]
    exact lookupJ_map_set_self h
  · rw [if_neg h]
    have hn : lookupJ l k = none := by
      cases hl : lookupJ l k with
      | none => rfl
      | some v2 => rw [hl] at h; simp at h
    rw [lookupJ_append, hn]
    simp [lookupJ]

lemma lookupJ_setKey_other (l : List (String × Json)) {k k2 : String}
    (hne : k2 ≠ k) (v : Json) :
    lookupJ (setKey l k v) k2 = lookupJ l k2 := by
  unfold setKey
  by_cases h : (lookupJ l k).isSome = true
  · rw [if_pos h]
    exact lookupJ_map_set_other hne
  · rw [if_neg h, lookupJ_append]
    cases hl : lookupJ l k2 with
    | some v2 => rfl
    | none => simp [lookupJ, Ne.symm hne]

lemma delKey_cons (kv : String × Json) (rest : List (String × Json)) (k : String) :
    delKey (kv :: rest) k =
      if kv.1 = k then delKey rest k else kv :: delKey rest k := by
  by_cases hk : kv.1 = k <;> simp [delKey, List.filter_cons, hk]

lemma lookupJ_delKey_self (l : List (String × Json)) (k : String) :
    lookupJ (delKey l k) k = none := by
  induction l with
  | nil => rfl
  | cons kv rest ih =>
    rw [delKey_cons]
    by_cases hk : kv.1 = k
    · rw [if_pos hk]; exact ih
    · rw [if_neg hk]; simp [lookupJ, hk, ih]

lemma lookupJ_delKey_other (l : List (String × Json)) {k k2 : String}
    (hne : k2 ≠ k) :
    lookupJ (delKey l k) k2 = lookupJ l k2 := by
  induction l with
  | nil => rfl
  | cons kv rest ih =>
    rw [delKey_cons]
    by_cases hk : kv.1 = k
    · have h2 : kv.1 ≠ k2 := by rw [hk]; exact Ne.symm hne
      rw [if_pos hk]
      simp [lookupJ, h2, ih]
    · rw [if_neg hk]
      simp [lookupJ, ih]

/-! ### Helper lemmas: the write loop -/

lemma memory_cache_ttl_eq_no_cache (t : TTLDirective) :
    memory_cache_ttl t 60 = .NO_CACHE ↔ t = .NO_CACHE := by
  cases t with
  | NO_CACHE => simp [memory_cache_ttl, ttl_gt]
  | NO_EXPIRE => simp [memory_cache_ttl, ttl_gt]
  | NO_EXPIRE_IF_IRREVERSIBLE => simp [memory_cache_ttl, ttl_gt]
  | seconds n =>
    simp only [memory_cache_ttl, ttl_gt]
    split <;> simp

lemma effective_ttl_eq_no_cache (t : TTLDirective) (k : BackendKind) :
    effective_ttl t k = .NO_CACHE ↔ t = .NO_CACHE := by
  cases k with
  | memory => exact memory_cache_ttl_eq_no_cache t
  | networked => exact Iff.rfl

lemma cache_set_go_cons (b : Backend) (rest : List Backend) (t : TTLDirective) :
    cache_set_go (b :: rest) t =
      if effective_ttl t b.kind = .NO_CACHE then []
      else .setIssued b (effective_ttl t b.kind) :: cache_set_go rest (effective_ttl t b.kind) := by
  rcases b with ⟨i, k⟩
  cases k <;> simp [cache_set_go, effective_ttl]

lemma cache_set_go_no_cache (caches : List Backend) :
    cache_set_go caches .NO_CACHE = [] := by
  cases caches with
  | nil => rfl
  | cons b rest =>
    rw [cache_set_go_cons]
    simp [effective_ttl_eq_no_cache]

lemma cache_set_go_covers {t : TTLDirective} (ht : t ≠ .NO_CACHE)
    {caches : List Backend} {b : Backend} (hb : b ∈ caches) :
    ∃ t2, WriteEvent.setIssued b t2 ∈ cache_set_go caches t := by
  induction caches generalizing t with
  | nil => cases hb
  | cons c rest ih =>
    rw [cache_set_go_cons]
    have h2 : effective_ttl t c.kind ≠ .NO_CACHE := fun e =>
      ht ((effective_ttl_eq_no_cache t c.kind).mp e)
    rw [if_neg h2]
    rcases List.mem_cons.mp hb with hb | hb
    · exact ⟨effective_ttl t c.kind, by rw [hb]; exact List.mem_cons_self _ _⟩
    · obtain ⟨t2, hm⟩ := ih h2 hb
      exact ⟨t2, List.mem_cons_of_mem _ hm⟩

/-! ### Helper lemma: falsy hits in the racing read -/

lemma cache_get_falsy_skip {v : Json} (hv : truthy v = false)
    (pre post : List GetOutcome) (req : Json) :
    cache_get (pre ++ GetOutcome.val v :: post) req = cache_get (pre ++ post) req := by
  induction pre with
  | nil => simp [cache_get, hv]
  | cons o pre ih =>
    cases o with
    | err => simp [cache_get]
    | val u =>
      by_cases hu : truthy u = true
      · simp [cache_get, hu, ih]
      · simp [cache_get, hu, ih]

/-! ### The claims -/

/-- C1 (counterexample): backend errors are NOT isolated to their backend.
Backend B's result is a non-empty, mergeable cached response, yet when
backend A's errored `get` completes first, awaiting it raises inside the
read loop and `ignore_errors_async` turns the whole read into an empty
result — the read does not go on to return B's value. -/
theorem C1_first_error_aborts_read :
    truthy (Json.obj [("id", Json.num 1), ("result", Json.str "x")]) = true ∧
    merge_cached_response (Json.obj [("id", Json.num 1), ("result", Json.str "x")])
        (Json.obj [("id", Json.num 42)])
      = some (Json.obj [("id", Json.num 42), ("result", Json.str "x")]) ∧
    cache_get
        [GetOutcome.err,
         GetOutcome.val (Json.obj [("id", Json.num 1), ("result", Json.str "x")])]
        (Json.obj [("id", Json.num 42)]) = none :=
  ⟨rfl, rfl, rfl⟩

/-- C1 (amended): the racing read returns the first non-empty backend
result in completion order provided no backend error completes earlier:
when B's non-empty value is the first non-miss completion, the read
returns its merge with the live request even if A errors later; but when
an error completes before any non-empty result, the whole read degrades
to a miss. -/
theorem C1_racing_read (pre rest : List GetOutcome) (v req : Json)
    (hv : truthy v = true)
    (hpre : ∀ u, GetOutcome.val u ∈ pre → truthy u = false)
    (hpre2 : GetOutcome.err ∉ pre) :
    cache_get (pre ++ GetOutcome.val v :: rest) req = merge_cached_response v req ∧
    ∀ rest2, cache_get (pre ++ GetOutcome.err :: rest2) req = none := by
  induction pre with
  | nil =>
    constructor
    · simp [cache_get, hv]
    · intro rest2; simp [cache_get]
  | cons o pre ih =>
    cases o with
    | err => exact absurd (List.mem_cons_self _ _) hpre2
    | val u =>
      have hu : truthy u = false := hpre u (List.mem_cons_self _ _)
      have ih2 := ih (fun u2 h2 => hpre u2 (List.mem_cons_of_mem _ h2))
        (fun h2 => hpre2 (List.mem_cons_of_mem _ h2))
      refine ⟨?_, fun rest2 => ?_⟩
      · simpa [cache_get, hu] using ih2.1
      · simpa [cache_get, hu] using ih2.2 rest2

/-- C1 (witness): with backend B's hit completing first and backend A's
error completing second, the read returns B's merged value; with the
error first, it returns empty. -/
theorem C1_racing_read_witness :
    cache_get
        [GetOutcome.val (Json.obj [("id", Json.num 1), ("result", Json.str "x")]),
         GetOutcome.err]
        (Json.obj [("id", Json.num 42)])
      = some (Json.obj [("id", Json.num 42), ("result", Json.str "x")]) ∧
    cache_get [GetOutcome.err] (Json.obj [("id", Json.num 42)]) = none := by
  have h := C1_racing_read [] [GetOutcome.err]
    (Json.obj [("id", Json.num 1), ("result", Json.str "x")])
    (Json.obj [("id", Json.num 42)]) rfl (by simp) (by simp)
  exact ⟨h.1.trans rfl, h.2 []⟩

/-- C2 (code evaluation at the failing input): the memory-cache cap leaks
to the networked backend through the reassigned `ttl` loop variable.
With the configured iteration order (memory cache first, then the
networked cache) and the `NO_EXPIRE` directive, the networked backend's
`set` receives the capped 60-second TTL instead of the uncapped
directive; reversing the order shows the leak is order-dependent,
contradicting "regardless of the order in which backends are iterated". -/
theorem C2_memory_cap_leak :
    cache_set_go [⟨0, .memory⟩, ⟨1, .networked⟩] .NO_EXPIRE =
      [.setIssued ⟨0, .memory⟩ (.seconds 60),
       .setIssued ⟨1, .networked⟩ (.seconds 60)] ∧
    cache_set_go [⟨1, .networked⟩, ⟨0, .memory⟩] .NO_EXPIRE =
      [.setIssued ⟨1, .networked⟩ .NO_EXPIRE,
       .setIssued ⟨0, .memory⟩ (.seconds 60)] := by
  constructor <;> rfl

/-- C3 (counterexample): a non-string `result.block_id` is NOT always a
parsing failure: the id `99` (a JSON number) is coerced by `str()` to
`"99"`, which parses as hex 153, and with `lastIrreversibleBlockNum =
200` the resolver returns `NO_EXPIRE`, not the `NO_CACHE` the claim's
failure policy demands for non-string ids. -/
theorem C3_nonstring_id_parses :
    irreversible_ttl (Json.obj [("result", Json.obj [("block_id", Json.num 99)])]) 200
      = TTLDirective.NO_EXPIRE ∧
    TTLDirective.NO_EXPIRE ≠ TTLDirective.NO_CACHE :=
  ⟨rfl, by decide⟩

/-- C3 (amended): the irreversibility resolver returns `NO_EXPIRE` when
`int(str(result.block_id)[:8], 16)` parses to a block number at most
`lastIrreversibleBlockNum` — in particular whenever the coerced prefix
is plain valid hex with that value — and `NO_CACHE` when the parsed
number exceeds it; on any extraction or parsing failure (absent
`result.block_id`, or an ASCII prefix that is not a base-16 integer
literal CPython accepts — which covers malformed ids and error
responses) it returns `NO_CACHE` without raising (the resolver is
total). A non-string id is coerced via `str()` and is not in itself a
failure. -/
theorem C3_irreversible_ttl (resp : Json) (librn : Nat) :
    (∀ v n, getIn ["result", "block_id"] resp = v →
      pyIntHex ((pyStr v).take 8) = some n →
      (n ≤ (librn : Int) →
        irreversible_ttl resp librn = TTLDirective.NO_EXPIRE) ∧
      ((librn : Int) < n →
        irreversible_ttl resp librn = TTLDirective.NO_CACHE)) ∧
    (∀ v, getIn ["result", "block_id"] resp = v →
      validHex ((pyStr v).take 8) = true →
      ((hexNum ((pyStr v).take 8) : Int) ≤ (librn : Int) →
        irreversible_ttl resp librn = TTLDirective.NO_EXPIRE) ∧
      ((librn : Int) < (hexNum ((pyStr v).take 8) : Int) →
        irreversible_ttl resp librn = TTLDirective.NO_CACHE)) ∧
    (∀ v, getIn ["result", "block_id"] resp = v →
      allAscii ((pyStr v).take 8) = true →
      pyIntHex ((pyStr v).take 8) = none →
      irreversible_ttl resp librn = TTLDirective.NO_CACHE) := by
  have main : ∀ v n, getIn ["result", "block_id"] resp = v →
      pyIntHex ((pyStr v).take 8) = some n →
      (n ≤ (librn : Int) →
        irreversible_ttl resp librn = TTLDirective.NO_EXPIRE) ∧
      ((librn : Int) < n →
        irreversible_ttl resp librn = TTLDirective.NO_CACHE) := by
    intro v n hv hp
    have hb : block_num_from_jsonrpc_response resp = some n := by
      rw [block_num_from_jsonrpc_response, hv, block_num_from_id]
      exact hp
    constructor
    · intro hle
      unfold irreversible_ttl
      rw [hb]
      exact if_neg (not_lt.mpr hle)
    · intro hlt
      unfold irreversible_ttl
      rw [hb]
      exact if_pos hlt
  refine ⟨main, ?_, ?_⟩
  · intro v hv hvalid
    exact main v ((hexNum ((pyStr v).take 8) : Nat) : Int) hv (pyIntHex_plain hvalid)
  · intro v hv _ hp
    have hb : block_num_from_jsonrpc_response resp = none := by
      rw [block_num_from_jsonrpc_response, hv, block_num_from_id]
      exact hp
    unfold irreversible_ttl
    rw [hb]

/-- C3 (witness): the `0x`-prefixed id `"0x99"` parses to block 153, so
with `lastIrreversibleBlockNum = 200` the resolver returns `NO_EXPIRE`;
the plain-hex id `"00000063abc"` encodes block 99, so with
`lastIrreversibleBlockNum = 100` it returns `NO_EXPIRE` as well. -/
theorem C3_irreversible_ttl_witness :
    irreversible_ttl
        (Json.obj [("result", Json.obj [("block_id", Json.str "0x99")])]) 200
      = TTLDirective.NO_EXPIRE ∧
    irreversible_ttl
        (Json.obj [("result", Json.obj [("block_id", Json.str "00000063abc")])]) 100
      = TTLDirective.NO_EXPIRE := by
  constructor
  · exact ((C3_irreversible_ttl
        (Json.obj [("result", Json.obj [("block_id", Json.str "0x99")])]) 200).1
      (Json.str "0x99") 153 rfl (by decide)).1 (by decide)
  · exact ((C3_irreversible_ttl
        (Json.obj [("result", Json.obj [("block_id", Json.str "00000063abc")])]) 100).2.1
      (Json.str "00000063abc") rfl (by decide)).1 (by decide)

/-- C4: a response carrying an `error` field is never written: the write
path issues no `set` against any backend, and the short-circuit happens
before the TTL computation — the trace contains no TTL-computed event
either, for every rule table, backend list and block height. -/
theorem C4_error_suppression (ttls : List (String × TTLDirective))
    (caches : List Backend) (req : Json) (librn : Nat) (value : Json)
    (h : hasKey value "error" = true) :
    (∀ b t, WriteEvent.setIssued b t ∉ cache_json_response ttls caches req librn value) ∧
    (∀ t, WriteEvent.ttlComputed t ∉ cache_json_response ttls caches req librn value) := by
  simp [cache_json_response, h]

/-- C4 (witness): a concrete error response is not written to a concrete
backend. -/
theorem C4_error_suppression_witness :
    WriteEvent.setIssued ⟨0, BackendKind.memory⟩ TTLDirective.NO_EXPIRE ∉
      cache_json_response [] [⟨0, BackendKind.memory⟩] (Json.obj []) 0
        (Json.obj [("error", Json.str "e")]) :=
  (C4_error_suppression [] [⟨0, BackendKind.memory⟩] (Json.obj []) 0
    (Json.obj [("error", Json.str "e")]) rfl).1 _ _

/-- C5: the skip decision is per backend: a backend whose effective TTL
is `NO_CACHE` receives no `set`, and every backend whose effective TTL is
not `NO_CACHE` does receive one. (The cap never turns a cacheable
directive into `NO_CACHE`, so the loop's early `return` on `NO_CACHE`
only ever fires when every backend's effective TTL is `NO_CACHE`.) -/
theorem C5_skip_independence (caches : List Backend) (t : TTLDirective)
    (b : Backend) (hb : b ∈ caches) :
    (effective_ttl t b.kind = .NO_CACHE →
      ∀ t2, WriteEvent.setIssued b t2 ∉ cache_set_go caches t) ∧
    (effective_ttl t b.kind ≠ .NO_CACHE →
      ∃ t2, WriteEvent.setIssued b t2 ∈ cache_set_go caches t) := by
  constructor
  · intro h t2
    have ht : t = .NO_CACHE := (effective_ttl_eq_no_cache t b.kind).mp h
    rw [ht, cache_set_go_no_cache]
    exact List.not_mem_nil _
  · intro h
    exact cache_set_go_covers
      (fun e => h ((effective_ttl_eq_no_cache t b.kind).mpr e)) hb

/-- C5 (witness): a memory backend with a cacheable 5-second directive
receives a `set`. -/
theorem C5_skip_independence_witness :
    ∃ t2, WriteEvent.setIssued ⟨0, BackendKind.memory⟩ t2 ∈
      cache_set_go [⟨0, BackendKind.memory⟩] (TTLDirective.seconds 5) :=
  (C5_skip_independence [⟨0, BackendKind.memory⟩] (TTLDirective.seconds 5)
    ⟨0, BackendKind.memory⟩ (by simp)).2 (by decide)

/-- C6 (counterexample): merging is not total over all cached responses
and live requests: a cached response without an `id` merged against a
live request without an `id` produces no merged response at all — the
`del` of the absent key raises — contradicting "the merged response
contains no 'id' key" for that input. -/
theorem C6_merge_keyerror_input :
    merge_cached_response (Json.obj [("result", Json.str "x")]) (Json.obj []) = none :=
  rfl

/-- C6 (amended): provided the cached response or the live request
carries an `id` (the inputs on which the merge returns), the merged
response's `id` equals the live request's `id` when the request has one,
the merged response has no `id` key when the request has none, and every
field other than `id` is unchanged. -/
theorem C6_merge_id (ckvs rkvs : List (String × Json))
    (h : (lookupJ ckvs "id").isSome = true ∨ (lookupJ rkvs "id").isSome = true) :
    ∃ mkvs, merge_cached_response (Json.obj ckvs) (Json.obj rkvs) = some (Json.obj mkvs) ∧
      (∀ v, lookupJ rkvs "id" = some v → lookupJ mkvs "id" = some v) ∧
      (lookupJ rkvs "id" = none → lookupJ mkvs "id" = none) ∧
      (∀ k, k ≠ "id" → lookupJ mkvs k = lookupJ ckvs k) := by
  simp only [merge_cached_response]
  cases hr : lookupJ rkvs "id" with
  | some v =>
    refine ⟨setKey ckvs "id" v, rfl, ?_, ?_, ?_⟩
    · intro v2 hv2
      cases hv2
      exact lookupJ_setKey_self ckvs "id" v
    · intro hn
      cases hn
    · intro k hk
      exact lookupJ_setKey_other ckvs hk v
  | none =>
    have hc : (lookupJ ckvs "id").isSome = true := by
      rcases h with h | h
      · exact h
      · rw [hr] at h; simp at h
    rw [if_pos hc]
    refine ⟨delKey ckvs "id", rfl, ?_, ?_, ?_⟩
    · intro v2 hv2
      cases hv2
    · intro _
      exact lookupJ_delKey_self ckvs "id"
    · intro k hk
      exact lookupJ_delKey_other ckvs hk

/-- C6 (witness): cached `{"id": 1, "result": "x"}` merged against live
`{"id": 42}` yields a response whose `id` is 42. -/
theorem C6_merge_id_witness :
    ∃ mkvs, merge_cached_response
        (Json.obj [("id", Json.num 1), ("result", Json.str "x")])
        (Json.obj [("id", Json.num 42)]) = some (Json.obj mkvs) ∧
      lookupJ mkvs "id" = some (Json.num 42) := by
  obtain ⟨mkvs, h1, h2, _, _⟩ :=
    C6_merge_id [("id", Json.num 1), ("result", Json.str "x")]
      [("id", Json.num 42)] (Or.inl rfl)
  exact ⟨mkvs, h1, h2 (Json.num 42) rfl⟩

/-- C7: the orchestrator's response never depends on the detached
write's outcome; a truthy read result is returned as-is with the
upstream call not invoked and nothing scheduled; an empty read (miss or
suppressed failure), and likewise a falsy read result, makes the
orchestrator return the upstream response unmodified with the write
scheduled as a detached trace. -/
theorem C7_orchestrator (ttls : List (String × TTLDirective))
    (caches : List Backend) (completions : List GetOutcome) (req up : Json)
    (librn : Nat) (w1 w2 : WriteOutcome) :
    (cacher ttls caches completions req up librn w1).response
      = (cacher ttls caches completions req up librn w2).response ∧
    (∀ m, cache_get completions req = some m → truthy m = true →
      cacher ttls caches completions req up librn w1
        = CacherOutcome.mk m false []) ∧
    (cache_get completions req = none →
      cacher ttls caches completions req up librn w1
        = CacherOutcome.mk up true (cache_json_response ttls caches req librn up)) ∧
    (∀ m, cache_get completions req = some m → truthy m = false →
      cacher ttls caches completions req up librn w1
        = CacherOutcome.mk up true (cache_json_response ttls caches req librn up)) := by
  refine ⟨rfl, ?_, ?_, ?_⟩
  · intro m hm ht
    simp [cacher, hm, ht]
  · intro h
    simp [cacher, h]
  · intro m hm ht
    simp [cacher, hm, ht]

/-- C7 (witness): a concrete hit is returned merged, without invoking
the upstream call, for either outcome of any previously detached
write. -/
theorem C7_orchestrator_witness :
    cacher [] [] [GetOutcome.val (Json.obj [("id", Json.num 7), ("result", Json.str "y")])]
        (Json.obj [("id", Json.num 9)]) (Json.str "up") 0 WriteOutcome.completed
      = CacherOutcome.mk (Json.obj [("id", Json.num 9), ("result", Json.str "y")]) false [] :=
  (C7_orchestrator [] [] [GetOutcome.val (Json.obj [("id", Json.num 7), ("result", Json.str "y")])]
    (Json.obj [("id", Json.num 9)]) (Json.str "up") 0
    WriteOutcome.completed WriteOutcome.failed).2.1
    (Json.obj [("id", Json.num 9), ("result", Json.str "y")]) rfl rfl

/-- C8: the merge is partial exactly as claimed: on dict payloads it
produces no response (the `del` of the absent `id` raises a `KeyError`)
precisely when neither the cached response nor the live request carries
an `id`. -/
theorem C8_merge_partiality (ckvs rkvs : List (String × Json)) :
    merge_cached_response (Json.obj ckvs) (Json.obj rkvs) = none ↔
      ((lookupJ ckvs "id").isSome = false ∧ (lookupJ rkvs "id").isSome = false) := by
  simp only [merge_cached_response]
  cases hr : lookupJ rkvs "id" with
  | some v => simp
  | none =>
    by_cases hc : (lookupJ ckvs "id").isSome = true
    · simp [hc]
    · simp [hc]

/-- C8 (witness): both sides lacking an `id`, the merge raises. -/
theorem C8_merge_partiality_witness :
    merge_cached_response (Json.obj []) (Json.obj []) = none :=
  (C8_merge_partiality [] []).mpr ⟨rfl, rfl⟩

/-- C9: block-number extraction succeeds on every block id value whose
`str()` coercion's first at-most-8 characters are valid hex — including
ids shorter than 8 characters and non-string values — returning the
integer value of those characters; consequently the failure branch is
caused only by values whose leading characters are not valid hex (the
converse does not hold: CPython's `int` also accepts sign, `0x`/`0X`
and underscore/whitespace forms, so some non-plain-hex prefixes parse
too). -/
theorem C9_block_num_extraction (v : Json) :
    (validHex ((pyStr v).take 8) = true →
      block_num_from_id v = some ((hexNum ((pyStr v).take 8) : Nat) : Int)) ∧
    (block_num_from_id v = none → validHex ((pyStr v).take 8) = false) := by
  have hsucc : validHex ((pyStr v).take 8) = true →
      block_num_from_id v = some ((hexNum ((pyStr v).take 8) : Nat) : Int) := by
    intro h
    rw [block_num_from_id]
    exact pyIntHex_plain h
  refine ⟨hsucc, ?_⟩
  intro hn
  by_cases hv : validHex ((pyStr v).take 8) = true
  · rw [hsucc hv] at hn
    cases hn
  · simpa using hv

/-- C9 (witness): the non-string id `99` is coerced to the 2-character
string `"99"` and parses as hex to block number 153; extraction never
fails on a plain-hex prefix. -/
theorem C9_block_num_extraction_witness :
    block_num_from_id (Json.num 99) = some 153 :=
  ((C9_block_num_extraction (Json.num 99)).1 (by decide)).trans (by decide)

/-- C10: a falsy-but-present backend result (empty dict, empty string)
is treated identically to a miss: deleting it from the completion order
changes nothing about the read or the orchestrator, and a read whose
only completion is falsy makes the orchestrator invoke the upstream
call. -/
theorem C10_falsy_hit_is_miss (pre post : List GetOutcome) (v req : Json)
    (hv : truthy v = false) :
    cache_get (pre ++ GetOutcome.val v :: post) req = cache_get (pre ++ post) req ∧
    (∀ ttls caches up librn w,
      cacher ttls caches (pre ++ GetOutcome.val v :: post) req up librn w
        = cacher ttls caches (pre ++ post) req up librn w) ∧
    (∀ ttls caches up librn w,
      (cacher ttls caches [GetOutcome.val v] req up librn w).upstreamCalled = true) := by
  have h1 := cache_get_falsy_skip hv pre post req
  refine ⟨h1, ?_, ?_⟩
  · intro ttls caches up librn w
    simp [cacher, h1]
  · intro ttls caches up librn w
    have h2 : cache_get [GetOutcome.val v] req = none := by
      simp [cache_get, hv]
    simp [cacher, h2]

/-- C10 (witness): an empty dict stored under the key is skipped by the
read and the orchestrator calls upstream. -/
theorem C10_falsy_hit_is_miss_witness :
    (cacher [] [] [GetOutcome.val (Json.obj [])] (Json.obj []) (Json.str "up") 0
      WriteOutcome.completed).upstreamCalled = true :=
  (C10_falsy_hit_is_miss [] [] (Json.obj []) (Json.obj []) rfl).2.2
    [] [] (Json.str "up") 0 WriteOutcome.completed

end Jussi
